import Mathlib

/-
Verification of the request-dispatch core of uni-cloud-router against its
specification.  The development shallowly embeds `src/Router.ts`: JavaScript
values become the inductive `JSValue`, the mutable Koa-style context becomes
explicit state passing, promise rejection becomes the `Except` error track,
and the outcome of the public `serve` operation is an explicit
`ServeOutcome` (resolved / rejected / never-settling).  Collaborators that
live outside `src/Router.ts` (the `http` transport middleware, the `error`
middleware factory, `parseAction`, `createRouteMatch`, `createContext`,
`FAILED_CODE`) are modelled from the specification and marked as such.
-/

/-- A JavaScript runtime value.  Objects are association lists of own
properties; functions are opaque identifiers resolved through a `FuncEnv`
environment (their behaviour is supplied externally, as in the source where
handler methods come from loaded controller modules). -/
inductive JSValue where
  | undefv
  | nullv
  | boolv (b : Bool)
  | num (n : Int)
  | str (s : String)
  | obj (fields : List (String × JSValue))
  | func (fid : Nat)

/-- JavaScript truthiness of a value (as used by `!action`, `!controller`,
`err.code || ...` in the source).  NaN is not representable here. -/
def jsTruthy : JSValue → Bool
  | .undefv => false
  | .nullv => false
  | .boolv b => b
  | .num n => n != 0
  | .str s => s != ""
  | .obj _ => true
  | .func _ => true

/-- First binding of a key in an object field list (JS own-property lookup). -/
def lookupField : List (String × JSValue) → String → Option JSValue
  | [], _ => none
  | (k, v) :: rest, key => if k = key then some v else lookupField rest key

/-- Property access on a value that is known not to be nullish: objects yield
the own property or `undefined`; primitives (boxed in JS) yield `undefined`
for every property this program reads. -/
def jsGetTotal (v : JSValue) (key : String) : JSValue :=
  match v with
  | .obj fields => (lookupField fields key).getD .undefv
  | _ => .undefv

/-- The TypeError object JavaScript throws when a property of `undefined` or
`null` is read. -/
def typeErrorObj (key : String) : JSValue :=
  .obj [("name", .str "TypeError"),
        ("message", .str ("Cannot read properties of undefined or null (reading " ++ key ++ ")"))]

/-- Property access with JavaScript semantics: reading a property of
`undefined` or `null` throws a TypeError; otherwise see `jsGetTotal`. -/
def jsGet (v : JSValue) (key : String) : Except JSValue JSValue :=
  match v with
  | .undefv => .error (typeErrorObj key)
  | .nullv => .error (typeErrorObj key)
  | _ => .ok (jsGetTotal v key)

/-- Whether an object value carries a given key among its own properties. -/
def jsHasKey (v : JSValue) (key : String) : Bool :=
  match v with
  | .obj fields => (lookupField fields key).isSome
  | _ => false

/-- RouterOptions as far as the dispatch core reads it: the `debug === true`
flag (`baseDir`/directory handling is external handler discovery). -/
structure Config where
  debug : Bool

/-- The per-invocation InvocationContext: raw event, raw platform context,
the handler namespace root, and the mutable result slot `body`. -/
structure Ctx where
  event : JSValue
  platformCtx : JSValue
  controller : JSValue
  body : JSValue

/-- Modelled from the spec: `createContext` (BaseContext.ts is not part of
the embedded source).  Builds a fresh InvocationContext from the config, the
event, the platform context and the handler namespace root supplied by the
handler namespace provider; `body` starts absent. -/
def createContext (_config : Config) (event pctx root : JSValue) : Ctx :=
  ⟨event, pctx, root, .undefv⟩

/-- Behaviour environment for controller methods: a function identifier
applied to its receiver (`method.call(controller, ctx)`) and the context
either throws a value or returns a value together with the possibly mutated
context. -/
def FuncEnv : Type :=
  Nat → JSValue → Ctx → Except JSValue (JSValue × Ctx)

/-- A koa-compose middleware over our context: it receives the context and a
continuation (`next`) and either throws a value or completes with the final
context state. -/
def MW : Type :=
  Ctx → (Ctx → Except JSValue Ctx) → Except JSValue Ctx

/-- Embeds `koa-compose`: running the composed chain dispatches the first
middleware with a continuation that dispatches the rest; past the last
middleware the final `next` resolves, leaving the context as it stands. -/
def composeRun : List MW → Ctx → Except JSValue Ctx
  | [], ctx => .ok ctx
  | m :: rest, ctx => m ctx (fun c => composeRun rest c)

/-- Modelled from the spec: the built-in transport middleware `http`
(middleware/http.ts is not part of the embedded source).  It decodes the raw
event and populates request-level fields — all external state not visible to
the dispatch core — and then defers to the rest of the chain. -/
def http : MW :=
  fun ctx next => next ctx

/-- Modelled from the spec: `parseAction` (middleware/http.ts is not part of
the embedded source).  It extracts the already-parsed action string from the
raw event; an event without an action string yields nothing. -/
def parseAction (event : JSValue) : Option String :=
  match jsGetTotal event "action" with
  | .str s => some s
  | _ => none

/-- A chain entry as stored by the router: the wrapped callable together
with its `_name` tag (`""` models an absent `_name`). -/
structure NamedMW where
  name : String
  mw : MW

/-- Modelled from the spec: the `error` middleware factory
(middleware/error.ts is not part of the embedded source).  It builds the
synthetic handler tagged `error` which throws its message inside the chain,
so the failure is caught and normalized at the Dispatcher boundary
(spec section 4.4: plain-string failures are supported). -/
def error (message : String) : NamedMW :=
  ⟨"error", fun _ _ => .error (.str message)⟩

/-- MiddlewareOptions: the optional explicit `name` plus the declarative
match criteria.  The criteria themselves are owned by the external match
predicate factory, so they are modelled directly as the pure predicate that
factory would produce (spec section 6). -/
structure MiddlewareOptions where
  name : Option String
  pred : Ctx → Bool

/-- Modelled from the spec: `createRouteMatch` (utils.ts is not part of the
embedded source).  Given MatchOptions it returns the pure match predicate;
absent options carry no criteria, so everything matches. -/
def createRouteMatch (o : Option MiddlewareOptions) : Ctx → Bool :=
  match o with
  | none => fun _ => true
  | some opts => opts.pred

/-- Modelled from the spec: `FAILED_CODE` (utils.ts is not part of the
embedded source) — the fixed default failure code constant used when a
thrown failure has no truthy `code` of its own. -/
def FAILED_CODE : JSValue :=
  .str "FAILED"

/-- The options the Router itself passes when auto-registering `http`:
only a name, no match criteria (the built-in entry always matches). -/
def httpOptions : MiddlewareOptions :=
  ⟨some "http", fun _ => true⟩

/-- Embeds `action.split('/')` (single-character separator split of
JavaScript): successive separator-free runs, keeping empty runs. -/
def jsSplitSlash : List Char → String → List String
  | [], acc => [acc]
  | c :: cs, acc => if c = '/' then acc :: jsSplitSlash cs "" else jsSplitSlash cs (acc.push c)

/-- Embeds `action.replace(new RegExp('/' + m + '$'), repl)` for method
names `m` free of regex metacharacters (every method name this development
reasons about is identifier-like, including the coerced key "undefined"):
if the action ends with `"/" ++ m` that suffix is replaced by `repl`,
otherwise the action is returned unchanged. -/
def jsReplaceSuffix (action m repl : String) : String :=
  let ad := action.data
  let tgt := '/' :: m.data
  if tgt.length ≤ ad.length ∧ ad.drop (ad.length - tgt.length) = tgt then
    String.mk (ad.take (ad.length - tgt.length) ++ repl.data)
  else action

/-- Identifier-like strings: nonempty, made of alphanumerics or underscore.
Inside this domain the regex built from a method name has no metacharacters
and the replacement string has no substitution patterns, so
`jsReplaceSuffix` is the exact embedding of the source's `replace`. -/
def identLike (s : String) : Bool :=
  s != "" && s.data.all (fun c => c.isAlphanum || c = '_')

/-- The namespace walk `for (let i = 0; i < len - 1; i++) controller =
controller[paths[i]]`: each step is a JavaScript property access, so a step
on an `undefined` (or `null`) intermediate node throws a TypeError. -/
def walkNS : JSValue → List String → Except JSValue JSValue
  | c, [] => .ok c
  | c, k :: ks =>
    match jsGet c k with
    | .error e => .error e
    | .ok v => walkNS v ks

/-- The wrapper middleware built by `Router.controller` around a resolved
method: it calls the method with the namespace node as receiver and the
context as sole argument, and assigns a non-`undefined` result to the
context body (`if (typeof ret !== 'undefined') ctx.body = ret`). -/
def handlerMW (env : FuncEnv) (receiver : JSValue) (fid : Nat) : MW :=
  fun ctx _next =>
    match env fid receiver ctx with
    | .error e => .error e
    | .ok (ret, ctx2) =>
      match ret with
      | .undefv => .ok ctx2
      | r => .ok (Ctx.mk ctx2.event ctx2.platformCtx ctx2.controller r)

/-- The Router: its read-only config and the ordered middleware sequence. -/
structure Router where
  config : Config
  middleware : List NamedMW

/-- Embeds `Router#wrapMiddleware`: the wrapper consults the match predicate
and either defers straight to `next` or invokes `fn`; its `_name` is the
truthy option name if given, else the function's own `_name`/`name`
(supplied here as `fnName`). -/
def Router.wrapMiddleware (fn : MW) (fnName : String) (o : Option MiddlewareOptions) : NamedMW :=
  let matchFn := createRouteMatch o
  let mw : MW := fun ctx next => if matchFn ctx then fn ctx next else next ctx
  let nameFromOpts : String :=
    match o with
    | some opts => opts.name.getD ""
    | none => ""
  ⟨if nameFromOpts ≠ "" then nameFromOpts else fnName, mw⟩

/-- Embeds `Router#use`: pushes the wrapped middleware onto the sequence.
(The synchronous TypeError for a non-callable argument cannot arise here
because `fn` is typed as a middleware.) -/
def Router.use (r : Router) (fn : MW) (fnName : String) (o : Option MiddlewareOptions) : Router :=
  ⟨r.config, r.middleware ++ [Router.wrapMiddleware fn fnName o]⟩

/-- Embeds the constructor together with `Router#initMiddleware`: the `http`
transport middleware is registered first under the name `http`, then every
configuration-supplied middleware is registered in order.  Each supplied
entry carries its function, its own-name fallback and its options, exactly
the data `use` consumes. -/
def Router.init (config : Config) (mws : List (MW × String × Option MiddlewareOptions)) : Router :=
  mws.foldl (fun r t => Router.use r t.1 t.2.1 t.2.2)
    (Router.use ⟨config, []⟩ http "http" (some httpOptions))

/-- Embeds `Router#controller`: parse the action, reject empty or
single-segment actions with synthetic error handlers, walk the namespace
(a walk step on a missing intermediate node throws, which propagates out of
`controller` itself), then check the final node and the method.  For a
segment list of length 0 the JavaScript `paths[len - 1]` is `undefined`,
which property access and string concatenation coerce to "undefined". -/
def Router.controller (env : FuncEnv) (ctx : Ctx) : Except JSValue NamedMW :=
  match parseAction ctx.event with
  | none => .ok (error "action is required")
  | some action =>
    if action = "" then .ok (error "action is required") else
    let paths := (jsSplitSlash action.data "").filter (fun s => s ≠ "")
    let len := paths.length
    if len = 1 then .ok (error "action must contain \"/\"") else
    let methodKey : String :=
      match paths.getLast? with
      | some s => s
      | none => "undefined"
    match walkNS ctx.controller (paths.take (len - 1)) with
    | .error e => .error e
    | .ok c =>
      if jsTruthy c then
        match jsGetTotal c methodKey with
        | .func fid => .ok ⟨methodKey, handlerMW env c fid⟩
        | _ => .ok (error ("controller/" ++ jsReplaceSuffix action methodKey ("." ++ methodKey) ++ " is not a function"))
      else
        .ok (error ("controller/" ++ jsReplaceSuffix action methodKey "" ++ " not found"))

/-- Embeds `Router#failed`: read `err.code` and `err.message` (JavaScript
property reads, so a nullish `err` throws), fall back to `FAILED_CODE`
respectively to `err` itself when the attribute is falsy, and attach the
`stack` attribute (or an empty string) exactly when `debug === true`. -/
def Router.failed (config : Config) (err : JSValue) : Except JSValue JSValue :=
  match jsGet err "code" with
  | .error e => .error e
  | .ok c =>
    match jsGet err "message" with
    | .error e => .error e
    | .ok m =>
      let codeV := if jsTruthy c then c else FAILED_CODE
      let msgV := if jsTruthy m then m else err
      if config.debug then
        match jsGet err "stack" with
        | .error e => .error e
        | .ok s => .ok (.obj [("code", codeV), ("message", msgV), ("stack", if jsTruthy s then s else .str "")])
      else
        .ok (.obj [("code", codeV), ("message", msgV)])

/-- Embeds `Router#respond`: the success value is the context body. -/
def Router.respond (ctx : Ctx) : JSValue :=
  ctx.body

/-- The chain `serve` composes: the bare error chain (raw `http` import plus
the synthetic handler) when resolution yielded the handler tagged `error`,
otherwise the full registered sequence followed by the resolved handler. -/
def Router.chainOf (r : Router) (ctrl : NamedMW) : List MW :=
  if ctrl.name = "error" then [http, ctrl.mw]
  else r.middleware.map (fun m => m.mw) ++ [ctrl.mw]

/-- Outcome of one call to the public `serve`: the returned promise resolves
with a value, rejects with a thrown value (a throw in the async body before
the inner `new Promise` is wired), or never settles (the executor's `catch`
callback itself threw, so `resolve` is never called). -/
inductive ServeOutcome where
  | resolved (v : JSValue)
  | rejected (e : JSValue)
  | stuck (e : JSValue)

/-- Embeds `Router#serve`: build the context, resolve the controller
synchronously (a throw here rejects the async function's promise), compose
the selected chain, and settle the inner promise with `respond` on clean
completion or with `failed` on a caught error; `failed` itself throwing
inside the `catch` callback leaves the promise forever pending.  The
ambient-platform fallback for an omitted event/context is external and out
of scope, so the model takes the effective event and context directly. -/
def Router.serve (r : Router) (env : FuncEnv) (root : JSValue) (event pctx : JSValue) : ServeOutcome :=
  let ctx := createContext r.config event pctx root
  match Router.controller env ctx with
  | .error e => .rejected e
  | .ok ctrl =>
    match composeRun (Router.chainOf r ctrl) ctx with
    | .ok ctx2 => .resolved (Router.respond ctx2)
    | .error err =>
      match Router.failed r.config err with
      | .ok v => .resolved v
      | .error e => .stuck e

/-- The normalized failure object produced for a plain-string failure `msg`
thrown by the synthetic error handler: default code, the string as message,
and an empty stack exactly when debug is enabled. -/
def plainFailure (debug : Bool) (msg : String) : JSValue :=
  if debug then .obj [("code", FAILED_CODE), ("message", .str msg), ("stack", .str "")]
  else .obj [("code", FAILED_CODE), ("message", .str msg)]

/-- Identifier-like strings: nonempty and made only of alphanumerics or
underscores.  For such method names the regex the source builds from them
has no metacharacters, so `jsReplaceSuffix` embeds the `replace` exactly. -/
def IdentLike (s : String) : Prop :=
  s.data ≠ [] ∧ ∀ ch ∈ s.data, (ch.isAlphanum || ch = '_') = true

theorem strDataAppend (a b : String) : (a ++ b).data = a.data ++ b.data := by
  cases a; cases b; rfl

theorem strDataPush (a : String) (c : Char) : (a.push c).data = a.data ++ [c] := by
  cases a; rfl

theorem strMkData (s : String) : String.mk s.data = s := by
  cases s; rfl

theorem strMkAppend (a b : String) : String.mk (a.data ++ b.data) = a ++ b := by
  cases a; cases b; rfl

theorem strNeEmpty (s : String) (h : s.data ≠ []) : s ≠ "" := by
  intro hs
  subst hs
  exact h rfl

theorem IdentLike.ne_empty (s : String) (h : IdentLike s) : s ≠ "" :=
  strNeEmpty s h.1

theorem IdentLike.no_slash (s : String) (h : IdentLike s) : ∀ ch ∈ s.data, ch ≠ '/' := by
  intro ch hm heq
  have := h.2 ch hm
  rw [heq] at this
  exact absurd this (by decide)

theorem jsSplitSlash_noSlash (l : List Char) (acc : String) (h : ∀ ch ∈ l, ch ≠ '/') :
    jsSplitSlash l acc = [String.mk (acc.data ++ l)] := by
  induction l generalizing acc with
  | nil => simp [jsSplitSlash, strMkData]
  | cons c cs ih =>
    have hc : c ≠ '/' := h c (List.mem_cons_self c cs)
    simp only [jsSplitSlash, if_neg hc]
    rw [ih (acc.push c) (fun x hx => h x (List.mem_cons_of_mem c hx))]
    rw [strDataPush, List.append_assoc]
    rfl

theorem jsSplitSlash_cut (l rest : List Char) (acc : String) (h : ∀ ch ∈ l, ch ≠ '/') :
    jsSplitSlash (l ++ '/' :: rest) acc = String.mk (acc.data ++ l) :: jsSplitSlash rest "" := by
  induction l generalizing acc with
  | nil => simp [jsSplitSlash, strMkData]
  | cons c cs ih =>
    have hc : c ≠ '/' := h c (List.mem_cons_self c cs)
    simp only [List.cons_append, jsSplitSlash, if_neg hc, List.append_eq]
    rw [ih (acc.push c) (fun x hx => h x (List.mem_cons_of_mem c hx))]
    rw [strDataPush, List.append_assoc]
    rfl

theorem jsSplitSlash_allSlash (l : List Char) (acc : String) (h : ∀ ch ∈ l, ch = '/') :
    jsSplitSlash l acc = acc :: List.replicate l.length "" := by
  induction l generalizing acc with
  | nil => rfl
  | cons c cs ih =>
    have hc : c = '/' := h c (List.mem_cons_self c cs)
    simp only [jsSplitSlash, if_pos hc, List.length_cons, List.replicate]
    rw [ih "" (fun x hx => h x (List.mem_cons_of_mem c hx))]

theorem filter_replicate_empty (n : Nat) :
    (List.replicate n ("" : String)).filter (fun s => s ≠ "") = [] := by
  induction n with
  | zero => rfl
  | succ k ih => simp [List.replicate_succ, List.filter_cons, ih]

theorem jsReplaceSuffix_strip (pre : List Char) (m repl : String) :
    jsReplaceSuffix (String.mk (pre ++ '/' :: m.data)) m repl = String.mk (pre ++ repl.data) := by
  unfold jsReplaceSuffix
  have hd : (String.mk (pre ++ '/' :: m.data)).data = pre ++ '/' :: m.data := rfl
  rw [hd]
  have hlen : (pre ++ '/' :: m.data).length = pre.length + ('/' :: m.data).length :=
    List.length_append pre ('/' :: m.data)
  rw [if_pos]
  · rw [hlen, Nat.add_sub_cancel, List.take_left]
  · constructor
    · rw [hlen]
      exact Nat.le_add_left _ _
    · rw [hlen, Nat.add_sub_cancel, List.drop_left]

theorem jsReplaceSuffix_miss (action : String) (m repl : String)
    (h : ∀ k, action.data.drop k ≠ '/' :: m.data) :
    jsReplaceSuffix action m repl = action := by
  unfold jsReplaceSuffix
  rw [if_neg]
  intro hc
  exact h _ hc.2

theorem foldl_use_config (ms : List (MW × String × Option MiddlewareOptions)) (r : Router) :
    (ms.foldl (fun r t => Router.use r t.1 t.2.1 t.2.2) r).config = r.config := by
  induction ms generalizing r with
  | nil => rfl
  | cons m rest ih =>
    simp only [List.foldl]
    rw [ih]
    rfl

theorem foldl_use_middleware (ms : List (MW × String × Option MiddlewareOptions)) (r : Router) :
    (ms.foldl (fun r t => Router.use r t.1 t.2.1 t.2.2) r).middleware
      = r.middleware ++ ms.map (fun t => Router.wrapMiddleware t.1 t.2.1 t.2.2) := by
  induction ms generalizing r with
  | nil => simp
  | cons m rest ih =>
    simp only [List.foldl, List.map]
    rw [ih]
    simp [Router.use]

theorem init_config (cfg : Config) (ms : List (MW × String × Option MiddlewareOptions)) :
    (Router.init cfg ms).config = cfg := by
  unfold Router.init
  rw [foldl_use_config]
  rfl

theorem init_middleware (cfg : Config) (ms : List (MW × String × Option MiddlewareOptions)) :
    (Router.init cfg ms).middleware
      = Router.wrapMiddleware http "http" (some httpOptions)
          :: ms.map (fun t => Router.wrapMiddleware t.1 t.2.1 t.2.2) := by
  unfold Router.init
  rw [foldl_use_middleware]
  rfl

theorem chainOf_error (r : Router) (ctrl : NamedMW) (h : ctrl.name = "error") :
    Router.chainOf r ctrl = [http, ctrl.mw] := by
  unfold Router.chainOf
  rw [if_pos h]

theorem errorChainRun (msg : String) (ctx : Ctx) :
    composeRun [http, (error msg).mw] ctx = .error (.str msg) := rfl

theorem failed_str (cfg : Config) (msg : String) :
    Router.failed cfg (.str msg) = .ok (plainFailure cfg.debug msg) := by
  cases cfg with
  | mk d => cases d <;> rfl

theorem jsGet_ok (v : JSValue) (key : String) (h1 : v ≠ .undefv) (h2 : v ≠ .nullv) :
    jsGet v key = .ok (jsGetTotal v key) := by
  cases v with
  | undefv => exact absurd rfl h1
  | nullv => exact absurd rfl h2
  | boolv b => rfl
  | num n => rfl
  | str s => rfl
  | obj fields => rfl
  | func fid => rfl

theorem serve_of_error_controller (cfg : Config)
    (ms : List (MW × String × Option MiddlewareOptions))
    (env : FuncEnv) (root ev pc : JSValue) (msg : String)
    (h : Router.controller env (createContext cfg ev pc root) = .ok (error msg)) :
    Router.serve (Router.init cfg ms) env root ev pc = .resolved (plainFailure cfg.debug msg) := by
  unfold Router.serve
  simp only [init_config, h, chainOf_error (Router.init cfg ms) (error msg) rfl,
    errorChainRun, failed_str]

/-- A behaviour environment whose methods do nothing and return nothing. -/
def envNoop : FuncEnv := fun _ _ c => .ok (.undefv, c)

/-- A behaviour environment whose methods always throw the given value. -/
def envThrow (e : JSValue) : FuncEnv := fun _ _ _ => .error e

/-- An event carrying the given action string. -/
def eventOf (a : String) : JSValue := .obj [("action", .str a)]

/-- C1: the spec claims `serve(event?, context?)` always resolves and never
rejects, for every event, platform context and handler namespace — including
actions of three or more segments whose first namespace segment is missing
from the handler tree.  The code violates this: resolving `a/b/c` against an
empty handler namespace makes the walk in `Router#controller` read a
property of `undefined`, and since `controller` is invoked in the async body
of `serve` before the promise that only ever resolves is wired up, the
promise returned by `serve` rejects with the TypeError. -/
theorem C1_code_bug_eval :
    Router.serve (Router.init ⟨false⟩ []) envNoop (.obj []) (eventOf "a/b/c") .undefv
      = .rejected (typeErrorObj "b") := rfl

/-- C7: a registered middleware wrapped with match options is skipped —
control passes directly to the next chain entry — exactly when the match
predicate evaluates to false on the current context, and is invoked with
the context and the continue capability when it evaluates to true. -/
theorem C7_match_gate (fn : MW) (fnName : String) (o : Option MiddlewareOptions)
    (ctx : Ctx) (next : Ctx → Except JSValue Ctx) :
    (createRouteMatch o ctx = false → (Router.wrapMiddleware fn fnName o).mw ctx next = next ctx)
    ∧ (createRouteMatch o ctx = true → (Router.wrapMiddleware fn fnName o).mw ctx next = fn ctx next) := by
  constructor
  · intro h
    simp only [Router.wrapMiddleware]
    rw [h]
    simp
  · intro h
    simp only [Router.wrapMiddleware]
    rw [h]
    simp

/-- Match options that never match, with a middleware that would poison the
chain if it ever ran: used to witness the skip semantics concretely. -/
def alwaysFalseOpts : MiddlewareOptions := ⟨none, fun _ => false⟩

/-- A middleware whose execution is observable: it fails the chain. -/
def spyMW : MW := fun _ _ => .error (.str "middleware ran")

/-- A concrete context for witnesses. -/
def ctxW : Ctx := createContext ⟨false⟩ .undefv .undefv .undefv

/-- Witness for C7: concretely, a non-matching middleware that would fail
the chain is skipped and control reaches the next entry untouched. -/
theorem C7_match_gate_witness :
    (Router.wrapMiddleware spyMW "spy" (some alwaysFalseOpts)).mw ctxW Except.ok = Except.ok ctxW :=
  (C7_match_gate spyMW "spy" (some alwaysFalseOpts) ctxW Except.ok).1 rfl

/-- C8: after construction the first middleware entry is always the wrapped
built-in `http` transport middleware, registered before any
configuration-supplied middleware; `use` strictly appends after it; and on
every invocation the composed chain hands control to `http` first (also on
the bare error chain, which starts with the raw `http` import). -/
theorem C8_http_first (cfg : Config) (ms : List (MW × String × Option MiddlewareOptions)) :
    (Router.init cfg ms).middleware.head? = some (Router.wrapMiddleware http "http" (some httpOptions))
    ∧ (∀ fn nm o, (Router.use (Router.init cfg ms) fn nm o).middleware
        = (Router.init cfg ms).middleware ++ [Router.wrapMiddleware fn nm o])
    ∧ (∀ ctrl : NamedMW, ∀ ctx : Ctx,
        ∃ k, composeRun (Router.chainOf (Router.init cfg ms) ctrl) ctx = http ctx k) := by
  refine ⟨?_, ?_, ?_⟩
  · rw [init_middleware]
    rfl
  · intro fn nm o
    rfl
  · intro ctrl ctx
    unfold Router.chainOf
    by_cases h : ctrl.name = "error"
    · rw [if_pos h]
      exact ⟨fun c => composeRun [ctrl.mw] c, rfl⟩
    · rw [if_neg h, init_middleware]
      exact ⟨fun c => composeRun
        ((ms.map (fun t => Router.wrapMiddleware t.1 t.2.1 t.2.2)).map (fun m => m.mw)
          ++ [ctrl.mw]) c, rfl⟩

/-- C2 counterexample: for the three-segment action `ns/sub/doThing` with
`ns.sub` present but `doThing` absent, the code's message keeps the
namespace slashes and only turns the final slash into a dot —
`controller/ns/sub.doThing is not a function` — which differs from the
claimed `controller/ns.sub.doThing is not a function`. -/
theorem C2_counterexample :
    Router.serve (Router.init ⟨false⟩ []) envNoop
        (.obj [("ns", .obj [("sub", .obj [])])]) (eventOf "ns/sub/doThing") .undefv
      = .resolved (plainFailure false "controller/ns/sub.doThing is not a function")
    ∧ "controller/ns/sub.doThing is not a function" ≠ "controller/ns.sub.doThing is not a function" :=
  ⟨rfl, by decide⟩

/-- C3 counterexample: when the first namespace segment `ns` is itself
missing, the intermediate lookup yields `undefined` and the next walk step
throws, so `serve` rejects instead of resolving to the claimed
`controller/ns/sub not found` failure. -/
theorem C3_counterexample :
    Router.serve (Router.init ⟨false⟩ []) envNoop (.obj []) (eventOf "ns/sub/doThing") .undefv
      = .rejected (typeErrorObj "sub") := rfl

/-- C5 counterexample: a failure `{ code: 0, message: "boom" }` has a
present `code` attribute, yet the normalization uses `err.code || ...`
(truthiness, not presence), so `serve` resolves with the default failure
code rather than the attribute value `0`. -/
theorem C5_counterexample :
    Router.serve (Router.init ⟨false⟩ [])
        (envThrow (.obj [("code", .num 0), ("message", .str "boom")]))
        (.obj [("ns", .obj [("m", .func 0)])]) (eventOf "ns/m") .undefv
      = .resolved (.obj [("code", FAILED_CODE), ("message", .str "boom")])
    ∧ FAILED_CODE ≠ JSValue.num 0 :=
  ⟨rfl, fun h => nomatch h⟩

theorem parseAction_eventOf (a : String) : parseAction (eventOf a) = some a := rfl

theorem data_three (a b c : String) :
    (a ++ "/" ++ b ++ "/" ++ c).data = (a ++ "/" ++ b).data ++ '/' :: c.data := by
  simp [strDataAppend]

theorem act_three_ne (a b c : String) : (a ++ "/" ++ b ++ "/" ++ c) ≠ "" := by
  apply strNeEmpty
  rw [data_three]
  simp

theorem replace_three_strip (a b c repl : String) :
    jsReplaceSuffix (a ++ "/" ++ b ++ "/" ++ c) c repl = (a ++ "/" ++ b) ++ repl := by
  have h : (a ++ "/" ++ b ++ "/" ++ c) = String.mk ((a ++ "/" ++ b).data ++ '/' :: c.data) := by
    rw [← data_three, strMkData]
  rw [h, jsReplaceSuffix_strip]
  exact strMkAppend _ _

theorem split_three (a b c : String)
    (ha : IdentLike a) (hb : IdentLike b) (hc : IdentLike c) :
    (jsSplitSlash (a ++ "/" ++ b ++ "/" ++ c).data "").filter (fun s => s ≠ "") = [a, b, c] := by
  have hd : (a ++ "/" ++ b ++ "/" ++ c).data = a.data ++ '/' :: (b.data ++ '/' :: c.data) := by
    simp [strDataAppend]
  rw [hd, jsSplitSlash_cut _ _ _ (IdentLike.no_slash a ha),
    jsSplitSlash_cut _ _ _ (IdentLike.no_slash b hb),
    jsSplitSlash_noSlash _ _ (IdentLike.no_slash c hc)]
  simp only [List.nil_append, strMkData]
  have ha' := IdentLike.ne_empty a ha
  have hb' := IdentLike.ne_empty b hb
  have hc' := IdentLike.ne_empty c hc
  simp [List.filter_cons, ha', hb', hc']

/-- Resolution of a three-segment action `a/b/c` when the walk reaches the
final namespace node and finds it falsy: the synthetic not-found handler. -/
theorem controller_three_notfound (env : FuncEnv) (cfg : Config) (pc root v1 v2 : JSValue)
    (a b c : String) (ha : IdentLike a) (hb : IdentLike b) (hc : IdentLike c)
    (h1 : jsGet root a = .ok v1) (h2 : jsGet v1 b = .ok v2) (h3 : jsTruthy v2 = false) :
    Router.controller env (createContext cfg (eventOf (a ++ "/" ++ b ++ "/" ++ c)) pc root)
      = .ok (error ("controller/" ++ (a ++ "/" ++ b) ++ " not found")) := by
  have hrepl := replace_three_strip a b c ""
  have hne := act_three_ne a b c
  simp only [Router.controller, createContext, parseAction_eventOf, split_three a b c ha hb hc]
  rw [if_neg hne]
  simp [walkNS, h1, h2, h3, hrepl]

/-- Resolution of a three-segment action `a/b/c` when the final namespace
node is truthy but the method is not callable: the synthetic
not-a-function handler, whose message replaces only the final slash. -/
theorem controller_three_notfunc (env : FuncEnv) (cfg : Config) (pc root v1 v2 : JSValue)
    (a b c : String) (ha : IdentLike a) (hb : IdentLike b) (hc : IdentLike c)
    (h1 : jsGet root a = .ok v1) (h2 : jsGet v1 b = .ok v2) (h3 : jsTruthy v2 = true)
    (h4 : ∀ fid, jsGetTotal v2 c ≠ .func fid) :
    Router.controller env (createContext cfg (eventOf (a ++ "/" ++ b ++ "/" ++ c)) pc root)
      = .ok (error ("controller/" ++ ((a ++ "/" ++ b) ++ ("." ++ c)) ++ " is not a function")) := by
  have hrepl := replace_three_strip a b c ("." ++ c)
  have hne := act_three_ne a b c
  simp only [Router.controller, createContext, parseAction_eventOf, split_three a b c ha hb hc]
  rw [if_neg hne]
  rcases hv : jsGetTotal v2 c with _ | _ | bb | nn | ss | ff | fid
  · simp [walkNS, h1, h2, h3, hrepl, hv]
  · simp [walkNS, h1, h2, h3, hrepl, hv]
  · simp [walkNS, h1, h2, h3, hrepl, hv]
  · simp [walkNS, h1, h2, h3, hrepl, hv]
  · simp [walkNS, h1, h2, h3, hrepl, hv]
  · simp [walkNS, h1, h2, h3, hrepl, hv]
  · exact absurd hv (h4 fid)

/-- Resolution of a three-segment action `a/b/c` when the second walk step
throws (the intermediate node is nullish): the exception escapes
`Router#controller` itself. -/
theorem controller_three_throw (env : FuncEnv) (cfg : Config) (pc root v1 e : JSValue)
    (a b c : String) (ha : IdentLike a) (hb : IdentLike b) (hc : IdentLike c)
    (h1 : jsGet root a = .ok v1) (h2 : jsGet v1 b = .error e) :
    Router.controller env (createContext cfg (eventOf (a ++ "/" ++ b ++ "/" ++ c)) pc root)
      = .error e := by
  have hne := act_three_ne a b c
  simp only [Router.controller, createContext, parseAction_eventOf, split_three a b c ha hb hc]
  rw [if_neg hne]
  simp [walkNS, h1, h2]

/-- C2 (amended): for every handler namespace in which node `ns.sub` exists
(the intermediate lookups succeed and the final node is truthy) but its
property `doThing` is not callable, `serve` invoked with action
`ns/sub/doThing` resolves to a failure whose message is exactly
`controller/ns/sub.doThing is not a function` — the original action with
only the final slash, the one before the method name, replaced by a dot. -/
theorem C2_amended (cfg : Config) (ms : List (MW × String × Option MiddlewareOptions))
    (env : FuncEnv) (pc root v1 v2 : JSValue) (a b c : String)
    (ha : IdentLike a) (hb : IdentLike b) (hc : IdentLike c)
    (h1 : jsGet root a = .ok v1) (h2 : jsGet v1 b = .ok v2) (h3 : jsTruthy v2 = true)
    (h4 : ∀ fid, jsGetTotal v2 c ≠ .func fid) :
    Router.serve (Router.init cfg ms) env root (eventOf (a ++ "/" ++ b ++ "/" ++ c)) pc
      = .resolved (plainFailure cfg.debug
          ("controller/" ++ ((a ++ "/" ++ b) ++ ("." ++ c)) ++ " is not a function")) :=
  serve_of_error_controller cfg ms env root _ pc _
    (controller_three_notfunc env cfg pc root v1 v2 a b c ha hb hc h1 h2 h3 h4)

/-- Witness for C2 (amended): the concrete namespace `{ ns: { sub: {} } }`
and action `ns/sub/doThing` produce exactly the single-dot message. -/
theorem C2_amended_witness :
    Router.serve (Router.init ⟨false⟩ []) envNoop (.obj [("ns", .obj [("sub", .obj [])])])
        (eventOf ("ns" ++ "/" ++ "sub" ++ "/" ++ "doThing")) .undefv
      = .resolved (plainFailure false
          ("controller/" ++ (("ns" ++ "/" ++ "sub") ++ ("." ++ "doThing")) ++ " is not a function")) :=
  C2_amended ⟨false⟩ [] envNoop .undefv (.obj [("ns", .obj [("sub", .obj [])])])
    (.obj [("sub", .obj [])]) (.obj []) "ns" "sub" "doThing"
    ⟨by decide, by decide⟩ ⟨by decide, by decide⟩ ⟨by decide, by decide⟩
    rfl rfl rfl (fun fid h => nomatch h)

/-- C3 (amended): for action `ns/sub/doThing`, provided the walk reaches the
final namespace lookup (here: the first lookup succeeded), if that final
lookup yields an undefined — or otherwise falsy — node then `serve` resolves
to a failure whose message is exactly `controller/ns/sub not found`; but if
an earlier intermediate lookup yields a nullish node, the next walk step
throws and `serve` rejects with that TypeError instead of resolving. -/
theorem C3_amended (cfg : Config) (ms : List (MW × String × Option MiddlewareOptions))
    (env : FuncEnv) (pc root v1 : JSValue) (a b c : String)
    (ha : IdentLike a) (hb : IdentLike b) (hc : IdentLike c)
    (h1 : jsGet root a = .ok v1) :
    (∀ v2, jsGet v1 b = .ok v2 → jsTruthy v2 = false →
      Router.serve (Router.init cfg ms) env root (eventOf (a ++ "/" ++ b ++ "/" ++ c)) pc
        = .resolved (plainFailure cfg.debug ("controller/" ++ (a ++ "/" ++ b) ++ " not found")))
    ∧ (∀ e, jsGet v1 b = .error e →
      Router.serve (Router.init cfg ms) env root (eventOf (a ++ "/" ++ b ++ "/" ++ c)) pc
        = .rejected e) := by
  constructor
  · intro v2 h2 h3
    exact serve_of_error_controller cfg ms env root _ pc _
      (controller_three_notfound env cfg pc root v1 v2 a b c ha hb hc h1 h2 h3)
  · intro e h2
    have hctrl := controller_three_throw env cfg pc root v1 e a b c ha hb hc h1 h2
    unfold Router.serve
    simp only [init_config, hctrl]

/-- Witness for C3 (amended): with namespace `{ ns: {} }` (so `ns.sub` is
undefined as the final lookup) the action `ns/sub/doThing` resolves to the
`controller/ns/sub not found` failure. -/
theorem C3_amended_witness :
    Router.serve (Router.init ⟨false⟩ []) envNoop (.obj [("ns", .obj [])])
        (eventOf ("ns" ++ "/" ++ "sub" ++ "/" ++ "doThing")) .undefv
      = .resolved (plainFailure false ("controller/" ++ ("ns" ++ "/" ++ "sub") ++ " not found")) :=
  (C3_amended ⟨false⟩ [] envNoop .undefv (.obj [("ns", .obj [])]) (.obj []) "ns" "sub" "doThing"
    ⟨by decide, by decide⟩ ⟨by decide, by decide⟩ ⟨by decide, by decide⟩ rfl).1 .undefv rfl rfl

/-- C4: whenever controller resolution yields the synthetic error handler
(absent action, single-segment action, missing final namespace node, or
non-callable method all do so), the chain `serve` executes is exactly the
raw transport middleware followed by that handler, the outcome is
independent of whatever user middleware is registered (none of it runs),
and `serve` resolves to the corresponding failure — `action is required`
for an absent or empty action, `action must contain "/"` for an action with
exactly one nonempty segment. -/
theorem C4_error_chain (cfg : Config)
    (ms1 ms2 : List (MW × String × Option MiddlewareOptions))
    (env : FuncEnv) (root ev pc : JSValue) :
    (∀ msg, Router.controller env (createContext cfg ev pc root) = .ok (error msg) →
      Router.chainOf (Router.init cfg ms1) (error msg) = [http, (error msg).mw]
      ∧ Router.serve (Router.init cfg ms1) env root ev pc
          = Router.serve (Router.init cfg ms2) env root ev pc
      ∧ Router.serve (Router.init cfg ms1) env root ev pc
          = .resolved (plainFailure cfg.debug msg))
    ∧ ((parseAction ev = none ∨ parseAction ev = some "") →
      Router.serve (Router.init cfg ms1) env root ev pc
        = .resolved (plainFailure cfg.debug "action is required"))
    ∧ (∀ a s, parseAction ev = some a →
      (jsSplitSlash a.data "").filter (fun x => x ≠ "") = [s] →
      Router.serve (Router.init cfg ms1) env root ev pc
        = .resolved (plainFailure cfg.debug "action must contain \"/\"")) := by
  refine ⟨?_, ?_, ?_⟩
  · intro msg h
    have e1 := serve_of_error_controller cfg ms1 env root ev pc msg h
    have e2 := serve_of_error_controller cfg ms2 env root ev pc msg h
    exact ⟨chainOf_error _ _ rfl, e1.trans e2.symm, e1⟩
  · intro h
    have hc : Router.controller env (createContext cfg ev pc root) = .ok (error "action is required") := by
      cases h with
      | inl hn => simp [Router.controller, createContext, hn]
      | inr hs => simp [Router.controller, createContext, hs]
    exact serve_of_error_controller cfg ms1 env root ev pc _ hc
  · intro a s hpa hfilt
    have hane : a ≠ "" := by
      intro heq
      subst heq
      simp [jsSplitSlash] at hfilt
    have hc : Router.controller env (createContext cfg ev pc root)
        = .ok (error "action must contain \"/\"") := by
      simp only [Router.controller, createContext, hpa]
      rw [if_neg hane, hfilt]
      rfl
    exact serve_of_error_controller cfg ms1 env root ev pc _ hc

/-- Witness for C4: with a registered user middleware that would fail the
chain if it ever ran, an event with no action still resolves to the
`action is required` failure, and the outcome equals the outcome of a
router with no user middleware at all. -/
theorem C4_error_chain_witness :
    Router.serve (Router.init ⟨false⟩ [(spyMW, "spy", none)]) envNoop (.obj []) (.obj []) .undefv
      = Router.serve (Router.init ⟨false⟩ []) envNoop (.obj []) (.obj []) .undefv
    ∧ Router.serve (Router.init ⟨false⟩ [(spyMW, "spy", none)]) envNoop (.obj []) (.obj []) .undefv
      = .resolved (plainFailure false "action is required") :=
  ⟨((C4_error_chain ⟨false⟩ [(spyMW, "spy", none)] [] envNoop (.obj []) (.obj []) .undefv).1
      "action is required" rfl).2.1,
    (C4_error_chain ⟨false⟩ [(spyMW, "spy", none)] [] envNoop (.obj []) (.obj []) .undefv).2.1
      (Or.inl rfl)⟩

/-- C5 (amended): when the chain fails with a non-nullish value `err`,
`serve` resolves to an object whose `code` is `err`'s `code` attribute when
that attribute is truthy and the fixed default failure code otherwise,
whose `message` is `err`'s `message` attribute when truthy and `err` itself
otherwise, and which carries a `stack` key (holding `err`'s `stack`
attribute, or an empty string when that is falsy) exactly when the debug
flag is enabled and never otherwise.  (For a nullish `err` the
normalization itself throws — see the C9 development.) -/
theorem C5_amended (cfg : Config) (ms : List (MW × String × Option MiddlewareOptions))
    (env : FuncEnv) (root ev pc : JSValue) (ctrl : NamedMW) (err : JSValue)
    (h1 : Router.controller env (createContext cfg ev pc root) = .ok ctrl)
    (h2 : composeRun (Router.chainOf (Router.init cfg ms) ctrl) (createContext cfg ev pc root)
        = .error err)
    (h3 : err ≠ .undefv) (h4 : err ≠ .nullv) :
    ∃ v, Router.serve (Router.init cfg ms) env root ev pc = .resolved v
      ∧ jsGetTotal v "code"
          = (if jsTruthy (jsGetTotal err "code") then jsGetTotal err "code" else FAILED_CODE)
      ∧ jsGetTotal v "message"
          = (if jsTruthy (jsGetTotal err "message") then jsGetTotal err "message" else err)
      ∧ jsHasKey v "stack" = cfg.debug
      ∧ (cfg.debug = true → jsGetTotal v "stack"
          = (if jsTruthy (jsGetTotal err "stack") then jsGetTotal err "stack" else .str "")) := by
  obtain ⟨d⟩ := cfg
  have hcode := jsGet_ok err "code" h3 h4
  have hmsg := jsGet_ok err "message" h3 h4
  have hstack := jsGet_ok err "stack" h3 h4
  cases d with
  | false =>
    refine ⟨.obj [("code", if jsTruthy (jsGetTotal err "code") then jsGetTotal err "code" else FAILED_CODE),
        ("message", if jsTruthy (jsGetTotal err "message") then jsGetTotal err "message" else err)],
      ?_, rfl, rfl, rfl, fun h => nomatch h⟩
    unfold Router.serve
    simp only [init_config, h1, h2, Router.failed, hcode, hmsg]
    rfl
  | true =>
    refine ⟨.obj [("code", if jsTruthy (jsGetTotal err "code") then jsGetTotal err "code" else FAILED_CODE),
        ("message", if jsTruthy (jsGetTotal err "message") then jsGetTotal err "message" else err),
        ("stack", if jsTruthy (jsGetTotal err "stack") then jsGetTotal err "stack" else .str "")],
      ?_, rfl, rfl, rfl, fun _ => rfl⟩
    unfold Router.serve
    simp only [init_config, h1, h2, Router.failed, hcode, hmsg, hstack]
    rfl

/-- The concrete failure object thrown in the C5 witness. -/
def cex5err : JSValue :=
  .obj [("code", .num 42), ("message", .str "boom"), ("stack", .str "TRACE")]

/-- Witness for C5 (amended): a handler throwing
`{ code: 42, message: "boom", stack: "TRACE" }` under an enabled debug flag
yields `{ code: 42, message: "boom", stack: "TRACE" }`. -/
theorem C5_amended_witness :
    ∃ v, Router.serve (Router.init ⟨true⟩ []) (envThrow cex5err)
        (.obj [("ns", .obj [("m", .func 0)])]) (eventOf "ns/m") .undefv = .resolved v
      ∧ jsGetTotal v "code" = .num 42
      ∧ jsGetTotal v "message" = .str "boom"
      ∧ jsHasKey v "stack" = true
      ∧ (true = true → jsGetTotal v "stack" = .str "TRACE") :=
  C5_amended ⟨true⟩ [] (envThrow cex5err) (.obj [("ns", .obj [("m", .func 0)])])
    (eventOf "ns/m") .undefv
    ⟨"m", handlerMW (envThrow cex5err) (.obj [("m", .func 0)]) 0⟩ cex5err
    rfl rfl (fun h => nomatch h) (fun h => nomatch h)

theorem serve_of_run (cfg : Config) (ms : List (MW × String × Option MiddlewareOptions))
    (env : FuncEnv) (root ev pc : JSValue) (ctrl : NamedMW) (ctx2 : Ctx)
    (h1 : Router.controller env (createContext cfg ev pc root) = .ok ctrl)
    (h2 : composeRun (Router.chainOf (Router.init cfg ms) ctrl) (createContext cfg ev pc root)
        = .ok ctx2) :
    Router.serve (Router.init cfg ms) env root ev pc = .resolved ctx2.body := by
  unfold Router.serve
  simp only [init_config, h1, h2, Router.respond]

theorem run_single_handler (cfg : Config) (h : NamedMW) (ctx : Ctx) :
    composeRun (Router.chainOf (Router.init cfg []) h) ctx = h.mw ctx (fun c => .ok c) := by
  unfold Router.chainOf
  by_cases hn : h.name = "error"
  · rw [if_pos hn]
    rfl
  · rw [if_neg hn, init_middleware]
    rfl

/-- C6: on clean chain completion `serve` resolves to exactly the context
body, whatever it holds; in particular a resolved handler returning a
non-`undefined` value `V` has `V` assigned as the body, so on a router with
no user middleware (where nothing later can overwrite it) `serve` resolves
to `V`, and a handler returning `undefined` leaves the body exactly as the
handler call left it. -/
theorem C6_respond_body (cfg : Config) (ms : List (MW × String × Option MiddlewareOptions))
    (env : FuncEnv) (root ev pc : JSValue) :
    (∀ ctrl ctx2, Router.controller env (createContext cfg ev pc root) = .ok ctrl →
      composeRun (Router.chainOf (Router.init cfg ms) ctrl) (createContext cfg ev pc root) = .ok ctx2 →
      Router.serve (Router.init cfg ms) env root ev pc = .resolved ctx2.body)
    ∧ (∀ nm recv fid V cx,
      Router.controller env (createContext cfg ev pc root) = .ok ⟨nm, handlerMW env recv fid⟩ →
      env fid recv (createContext cfg ev pc root) = .ok (V, cx) → V ≠ .undefv →
      Router.serve (Router.init cfg []) env root ev pc = .resolved V)
    ∧ (∀ nm recv fid cx,
      Router.controller env (createContext cfg ev pc root) = .ok ⟨nm, handlerMW env recv fid⟩ →
      env fid recv (createContext cfg ev pc root) = .ok (.undefv, cx) →
      Router.serve (Router.init cfg []) env root ev pc = .resolved cx.body) := by
  refine ⟨?_, ?_, ?_⟩
  · intro ctrl ctx2 h1 h2
    exact serve_of_run cfg ms env root ev pc ctrl ctx2 h1 h2
  · intro nm recv fid V cx h1 h2 h3
    have hh : handlerMW env recv fid (createContext cfg ev pc root) (fun c => .ok c)
        = .ok ⟨cx.event, cx.platformCtx, cx.controller, V⟩ := by
      unfold handlerMW
      rw [h2]
      cases V with
      | undefv => exact absurd rfl h3
      | nullv => rfl
      | boolv b => rfl
      | num n => rfl
      | str s => rfl
      | obj fields => rfl
      | func fid2 => rfl
    exact serve_of_run cfg [] env root ev pc ⟨nm, handlerMW env recv fid⟩
      ⟨cx.event, cx.platformCtx, cx.controller, V⟩ h1
      ((run_single_handler cfg ⟨nm, handlerMW env recv fid⟩ _).trans hh)
  · intro nm recv fid cx h1 h2
    have hh : handlerMW env recv fid (createContext cfg ev pc root) (fun c => .ok c)
        = .ok cx := by
      unfold handlerMW
      rw [h2]
    exact serve_of_run cfg [] env root ev pc ⟨nm, handlerMW env recv fid⟩ cx h1
      ((run_single_handler cfg ⟨nm, handlerMW env recv fid⟩ _).trans hh)

/-- A behaviour environment whose methods return the number seven. -/
def envRet7 : FuncEnv := fun _ _ c => .ok (.num 7, c)

/-- Witness for C6: a resolved handler returning `7` makes `serve`
resolve to `7`. -/
theorem C6_respond_body_witness :
    Router.serve (Router.init ⟨false⟩ []) envRet7 (.obj [("ns", .obj [("m", .func 0)])])
        (eventOf "ns/m") .undefv = .resolved (.num 7) :=
  (C6_respond_body ⟨false⟩ [] envRet7 (.obj [("ns", .obj [("m", .func 0)])])
      (eventOf "ns/m") .undefv).2.1
    "m" (.obj [("m", .func 0)]) 0 (.num 7)
    (createContext ⟨false⟩ (eventOf "ns/m") .undefv (.obj [("ns", .obj [("m", .func 0)])]))
    rfl rfl (fun h => nomatch h)

/-- C9: failure normalization is total only for non-nullish failures.  When
the chain fails with `null` or `undefined`, the catch-side normalization
reads the `code` attribute off the failure unguarded and throws; the
executor's `resolve` is never reached, so `serve` does not produce the
normalized failure object (its promise never settles). -/
theorem C9_nullish_failure (cfg : Config) (ms : List (MW × String × Option MiddlewareOptions))
    (env : FuncEnv) (root ev pc : JSValue) (ctrl : NamedMW)
    (h1 : Router.controller env (createContext cfg ev pc root) = .ok ctrl)
    (h2 : composeRun (Router.chainOf (Router.init cfg ms) ctrl) (createContext cfg ev pc root)
          = .error .nullv
        ∨ composeRun (Router.chainOf (Router.init cfg ms) ctrl) (createContext cfg ev pc root)
          = .error .undefv) :
    Router.serve (Router.init cfg ms) env root ev pc = .stuck (typeErrorObj "code")
    ∧ ∀ v, Router.serve (Router.init cfg ms) env root ev pc ≠ .resolved v := by
  have hs : Router.serve (Router.init cfg ms) env root ev pc = .stuck (typeErrorObj "code") := by
    cases h2 with
    | inl h =>
      unfold Router.serve
      simp only [init_config, h1, h]
      rfl
    | inr h =>
      unfold Router.serve
      simp only [init_config, h1, h]
      rfl
  refine ⟨hs, fun v hv => ?_⟩
  rw [hs] at hv
  exact nomatch hv

/-- Witness for C9: a handler throwing `null` leaves `serve` stuck on the
TypeError raised while reading `code` off the nullish failure. -/
theorem C9_nullish_failure_witness :
    Router.serve (Router.init ⟨false⟩ []) (envThrow .nullv)
        (.obj [("ns", .obj [("m", .func 0)])]) (eventOf "ns/m") .undefv
      = .stuck (typeErrorObj "code") :=
  (C9_nullish_failure ⟨false⟩ [] (envThrow .nullv) (.obj [("ns", .obj [("m", .func 0)])])
      (eventOf "ns/m") .undefv
      ⟨"m", handlerMW (envThrow .nullv) (.obj [("m", .func 0)]) 0⟩
      rfl (Or.inl rfl)).1

/-- C10: for every non-empty action string consisting only of slashes (so
the split-and-discard-empties step leaves zero segments), the resolver
reports neither `action is required` nor `action must contain "/"`: the
method name lookup index underflows, JavaScript coerces the `undefined`
method name to the property key and text "undefined", and — for a handler
tree that is an object without a callable `undefined` member — the
invocation surfaces the `is not a function` failure path, whose message
keeps the whole original action because the anchored `/undefined` pattern
does not match a slash-only string. -/
theorem C10_slash_only_action (cfg : Config)
    (ms : List (MW × String × Option MiddlewareOptions)) (env : FuncEnv) (pc : JSValue)
    (fields : List (String × JSValue)) (action : String)
    (hne : action.data ≠ [])
    (hall : ∀ ch ∈ action.data, ch = '/')
    (hnf : ∀ fid, jsGetTotal (.obj fields) "undefined" ≠ .func fid) :
    Router.controller env (createContext cfg (eventOf action) pc (.obj fields))
        = .ok (error ("controller/" ++ action ++ " is not a function"))
    ∧ Router.serve (Router.init cfg ms) env (.obj fields) (eventOf action) pc
        = .resolved (plainFailure cfg.debug ("controller/" ++ action ++ " is not a function")) := by
  have hne' : action ≠ "" := strNeEmpty action hne
  have hsplit : (jsSplitSlash action.data "").filter (fun s => s ≠ "") = [] := by
    rw [jsSplitSlash_allSlash action.data "" hall]
    simp [List.filter_cons, filter_replicate_empty]
  have hrepl : jsReplaceSuffix action "undefined" ".undefined" = action := by
    unfold jsReplaceSuffix
    rw [if_neg]
    intro hcond
    have hu : 'u' ∈ action.data.drop
        (action.data.length - ('/' :: "undefined".data).length) := by
      rw [hcond.2]
      decide
    have hmem := List.drop_subset _ action.data hu
    have := hall 'u' hmem
    exact absurd this (by decide)
  have hctrl : Router.controller env (createContext cfg (eventOf action) pc (.obj fields))
      = .ok (error ("controller/" ++ action ++ " is not a function")) := by
    simp only [Router.controller, createContext, parseAction_eventOf]
    rw [if_neg hne', hsplit]
    rcases hv : jsGetTotal (.obj fields) "undefined" with _ | _ | bb | nn | ss | ff | fid
    · simp [walkNS, jsTruthy, hv, hrepl]
    · simp [walkNS, jsTruthy, hv, hrepl]
    · simp [walkNS, jsTruthy, hv, hrepl]
    · simp [walkNS, jsTruthy, hv, hrepl]
    · simp [walkNS, jsTruthy, hv, hrepl]
    · simp [walkNS, jsTruthy, hv, hrepl]
    · exact absurd hv (hnf fid)
  exact ⟨hctrl, serve_of_error_controller cfg ms env (.obj fields) (eventOf action) pc _ hctrl⟩

/-- Witness for C10: the action `///` against an empty handler tree yields
the `controller//// is not a function` failure. -/
theorem C10_slash_only_action_witness :
    Router.serve (Router.init ⟨false⟩ []) envNoop (.obj []) (eventOf "///") .undefv
      = .resolved (plainFailure false ("controller/" ++ "///" ++ " is not a function")) :=
  (C10_slash_only_action ⟨false⟩ [] envNoop .undefv [] "///" (by decide) (by decide)
    (fun fid h => nomatch h)).2
